import Mathlib

/-!
Verification of the booking-frequency analysis app (`src/app.py`).

The core computation is `create_frequency_table(data, period, start_period,
end_period, max_upper)` together with the flattening of the resulting table
into a count-per-person sample for the mean/median annotations in
`update_outputs`.  Both are shallowly embedded below.

Embedding conventions:
* A dataframe row becomes a `BookingRow`.  The timestamp column enters the
  computation only through `dt.to_period("M").astype(str)`, so we record the
  already-derived month string: `Start_Date_time = some "YYYY-MM"` for a
  parsed timestamp, `none` for pandas `NaT` (an unparsable value after
  `pd.to_datetime(..., errors="coerce")`).  `astype(str)` renders `NaT` as the
  literal string `"NaT"`, which is what `periodOf` produces for `none`.
* Python string comparison is lexicographic on code points; it is embedded
  executably as `lexLt`/`strLe` on the code-point lists.
* `groupby("Id_Person").size()` yields a series indexed by the distinct ids in
  ascending order; `booking_frequencies` mirrors this as an association list.
* The `Freq` column holds the ints `1..max_upper` and the single string
  `f">{max_upper}"`; `FreqCell.num i` stands for the int `i` and
  `FreqCell.over m` for the string `">" ++ toString m`.  The two places that
  consume the string — `get_student_details` (`freq.startswith(">")`) and the
  statistics flattening (`int(freq.replace('>', ''))`, which recovers `m`) —
  are embedded on the tagged form.
-/

namespace BookingApp

structure BookingRow where
  Id_Person : Nat
  FirstName : String
  Class_Name : String
  Start_Date_time : Option String
deriving DecidableEq, Repr

/-- `row["Start_Date_time"].dt.to_period("M").astype(str)`: the month string of
a parsed timestamp, or the literal `"NaT"` when the timestamp failed to parse. -/
def periodOf (r : BookingRow) : String := r.Start_Date_time.getD "NaT"

/-- Python truthiness of the optional string arguments `period`,
`start_period`, `end_period` (default `None`; the empty string is falsy). -/
def truthy : Option String → Bool
  | none => false
  | some s => s != ""

/-- The string value of an optional argument (only consulted when truthy). -/
def optStr (o : Option String) : String := o.getD ""

/-- Python's string `<`: lexicographic comparison of the code-point
sequences.  (Heads compared first; on a tie the tails decide; a proper
prefix is smaller.) -/
def lexLt : List Char → List Char → Bool
  | _, [] => false
  | [], _ :: _ => true
  | a :: as, b :: bs =>
    decide (a.toNat < b.toNat) || (a.toNat == b.toNat && lexLt as bs)

/-- Python's `s <= t` on strings: `¬ (t < s)`. -/
def strLe (s t : String) : Bool := !(lexLt t.data s.data)

/-- The window-selection prefix of `create_frequency_table` (app.py lines
19-25): `if period: ... elif start_period and end_period: ... else: return None`. -/
def window_filter (data : List BookingRow) (period start_period end_period : Option String) :
    Option (List BookingRow) :=
  if truthy period then
    some (data.filter (fun r => periodOf r == optStr period))
  else if truthy start_period && truthy end_period then
    some (data.filter (fun r =>
      strLe (optStr start_period) (periodOf r) && strLe (periodOf r) (optStr end_period)))
  else
    none

/-- `data_filtered["Class_Name"].str.contains("Self Practice", case=False)`:
case-insensitive substring test (the pattern has no regex metacharacters, so
the match is plain substring containment after lowercasing both sides;
lowercasing is applied per character, as `String.toLower` does). -/
def containsSelfPractice (s : String) : Bool :=
  decide ("Self Practice".data.map Char.toLower <:+: s.data.map Char.toLower)

/-- App.py line 28: drop the rows whose class name contains "Self Practice". -/
def dropSelfPractice (rows : List BookingRow) : List BookingRow :=
  rows.filter (fun r => !containsSelfPractice r.Class_Name)

/-- The size of one group of `groupby("Id_Person")`. -/
def personCount (rows : List BookingRow) (id : Nat) : Nat :=
  (rows.filter (fun r => r.Id_Person == id)).length

/-- The index of `groupby("Id_Person").size()`: the distinct ids, ascending. -/
def sortedIds (rows : List BookingRow) : List Nat :=
  List.insertionSort (· ≤ ·) ((rows.map (fun r => r.Id_Person)).dedup)

/-- `booking_frequencies = data_filtered.groupby("Id_Person").size()` as an
association list `(id, count)` in ascending id order. -/
def booking_frequencies (rows : List BookingRow) : List (Nat × Nat) :=
  (sortedIds rows).map (fun id => (id, personCount rows id))

/-- One cell of the `Freq` column: the int `i`, or the overflow string
`f">{max_upper}"` (which carries `max_upper` itself). -/
inductive FreqCell where
  | num (i : Nat)
  | over (m : Nat)
deriving DecidableEq, Repr, Inhabited

structure FreqRow where
  Freq : FreqCell
  Students : Nat
  CumFromStart : Nat
  CumToEnd : Nat
  Details : String
deriving DecidableEq, Repr, Inhabited

/-- `Series.drop_duplicates()`: keep the first occurrence of each value. -/
def dedupFirstAux : List String → List String → List String
  | _, [] => []
  | seen, a :: l =>
    if seen.contains a then dedupFirstAux seen l else a :: dedupFirstAux (a :: seen) l

def dedupFirst (l : List String) : List String := dedupFirstAux [] l

/-- `get_student_details` (app.py lines 45-52): pick the ids whose count
matches the bucket, gather the distinct first names over all rows of those
ids (in row order), and join `zip(names, ids)` as `"name : id"`.  The zip
truncates to the shorter list, and the names are NOT realigned with the ids. -/
def get_student_details (data_filtered : List BookingRow) (bf : List (Nat × Nat))
    (max_upper : Nat) (freq : FreqCell) : String :=
  let ids : List Nat :=
    match freq with
    | .over _ => (bf.filter (fun p => decide (max_upper < p.2))).map Prod.fst
    | .num i => (bf.filter (fun p => p.2 == i)).map Prod.fst
  let names : List String :=
    dedupFirst ((data_filtered.filter (fun r => ids.contains r.Id_Person)).map
      (fun r => r.FirstName))
  String.intercalate ", " ((names.zip ids).map (fun p => p.1 ++ " : " ++ toString p.2))

/-- Row `i` (for `i` in `1..max_upper`) of the table built at app.py lines
34-42 and 54. -/
def numericRow (data_filtered : List BookingRow) (bf : List (Nat × Nat))
    (max_upper i : Nat) : FreqRow :=
  { Freq := .num i
    Students := bf.countP (fun p => p.2 == i)
    CumFromStart := bf.countP (fun p => decide (p.2 ≤ i))
    CumToEnd := bf.length - bf.countP (fun p => decide (p.2 ≤ i))
    Details := get_student_details data_filtered bf max_upper (.num i) }

/-- The final `f">{max_upper}"` row of the same table. -/
def overflowRow (data_filtered : List BookingRow) (bf : List (Nat × Nat))
    (max_upper : Nat) : FreqRow :=
  { Freq := .over max_upper
    Students := bf.countP (fun p => decide (max_upper < p.2))
    CumFromStart := bf.length
    CumToEnd := bf.countP (fun p => decide (max_upper < p.2))
    Details := get_student_details data_filtered bf max_upper (.over max_upper) }

/-- `create_frequency_table` (app.py lines 17-55). -/
def create_frequency_table (data : List BookingRow)
    (period start_period end_period : Option String) (max_upper : Nat) :
    Option (List FreqRow) :=
  match window_filter data period start_period end_period with
  | none => none
  | some dataW =>
    let data_filtered := dropSelfPractice dataW
    let bf := booking_frequencies data_filtered
    some (((List.range' 1 max_upper).map
        (fun i => numericRow data_filtered bf max_upper i)) ++
      [overflowRow data_filtered bf max_upper])

/-- `int(freq.replace('>', ''))` when `freq` is the overflow string, else the
int itself (`update_outputs`, app.py lines 279-282). -/
def freqCellValue : FreqCell → Nat
  | .num i => i
  | .over m => m

/-- `freq_data` (app.py lines 278-282): each table row contributes
`student_count` copies of its (parsed) frequency value, in row order. -/
def freq_data (table : List FreqRow) : List Nat :=
  (table.map (fun r => List.replicate r.Students (freqCellValue r.Freq))).flatten

/-- `mean_val = sum(freq_data) / len(freq_data)` (app.py line 285). -/
def mean_val (fd : List Nat) : ℚ := (fd.sum : ℚ) / (fd.length : ℚ)

/-- `median_val = sorted(freq_data)[len(freq_data)//2]` (app.py line 286). -/
def median_val (fd : List Nat) : Nat :=
  (List.insertionSort (· ≤ ·) fd).getD (fd.length / 2) 0

/-- The mean/median annotations added by `update_outputs` (app.py lines
284-296): present only when the flattened sample is non-empty. -/
def displayed_stats (table : List FreqRow) : Option (ℚ × Nat) :=
  let fd := freq_data table
  if fd.isEmpty then none else some (mean_val fd, median_val fd)

/-- The rows that survive both the window filter and the "Self Practice"
exclusion (empty when no window is specified). -/
def matching_rows (data : List BookingRow) (period start_period end_period : Option String) :
    List BookingRow :=
  dropSelfPractice ((window_filter data period start_period end_period).getD [])

/-- Number of distinct person ids among a list of rows. -/
def distinct_person_count (rows : List BookingRow) : Nat :=
  ((rows.map (fun r => r.Id_Person)).dedup).length

/-- Syntactic shape of a `YYYY-MM` month string: four digits, a dash, two
digits.  All window values the UI can supply have this shape. -/
def isYearMonth (m : String) : Bool :=
  match m.data with
  | [y1, y2, y3, y4, sep, m1, m2] =>
    y1.isDigit && y2.isDigit && y3.isDigit && y4.isDigit &&
      sep == '-' && m1.isDigit && m2.isDigit
  | _ => false

/-- The flattened count-per-person sample exactly as claim C1/C2's wording has
it: numeric bucket `i` contributes `Students` copies of `i`, the overflow
bucket contributes `Students` copies of `max_upper + 1`. -/
def claimSampleC2 (table : List FreqRow) (max_upper : Nat) : List Nat :=
  (table.map (fun r => List.replicate r.Students
    (match r.Freq with
     | .num i => i
     | .over _ => max_upper + 1))).flatten

/-- The same flattening with the overflow value the code actually uses:
`max_upper` (what `int(f">{max_upper}".replace('>', ''))` evaluates to). -/
def amendedSampleC2 (table : List FreqRow) (max_upper : Nat) : List Nat :=
  (table.map (fun r => List.replicate r.Students
    (match r.Freq with
     | .num i => i
     | .over _ => max_upper))).flatten

/-- Two persons sharing bucket 1, with the first-appearing row belonging to
the larger id: Bob is person 2, Alice is person 1. -/
def c1Data : List BookingRow :=
  [⟨2, "Bob", "Yoga", some "2024-01"⟩,
   ⟨1, "Alice", "Yoga", some "2024-01"⟩]

/-- One person with two in-window bookings (lands in the overflow bucket for
`max_upper = 1`). -/
def c2Data : List BookingRow :=
  [⟨1, "A", "Yoga", some "2024-01"⟩,
   ⟨1, "A", "Yoga", some "2024-01"⟩]

/-- A single in-window booking of person 7. -/
def c3Data : List BookingRow := [⟨7, "A", "Yoga", some "2024-01"⟩]

/-- Persons 1 (two bookings), 2 (three bookings), 3 (one booking) in window,
one "Self Practice" row, and one out-of-window row. -/
def c4Data : List BookingRow :=
  [⟨1, "A", "Yoga", some "2024-01"⟩,
   ⟨1, "A", "Yoga", some "2024-01"⟩,
   ⟨2, "B", "Yoga", some "2024-01"⟩,
   ⟨2, "B", "Yoga", some "2024-01"⟩,
   ⟨2, "B", "Yoga", some "2024-01"⟩,
   ⟨3, "C", "Yoga", some "2024-01"⟩,
   ⟨4, "D", "Self Practice Room", some "2024-01"⟩,
   ⟨5, "E", "Yoga", some "2023-12"⟩]

/-- One parsed row and one row whose timestamp failed to parse. -/
def c5Data : List BookingRow :=
  [⟨1, "A", "Yoga", some "2024-01"⟩,
   ⟨2, "B", "Yoga", none⟩]

end BookingApp

namespace BookingApp

/-! ## Theorems -/

/-- Unfolding `create_frequency_table` once the window filter has produced
`dataW`. -/
lemma create_eq_some (data : List BookingRow) (p s e : Option String) (M : Nat)
    (dataW : List BookingRow) (hw : window_filter data p s e = some dataW) :
    create_frequency_table data p s e M =
      some (((List.range' 1 M).map
          (fun i => numericRow (dropSelfPractice dataW)
            (booking_frequencies (dropSelfPractice dataW)) M i)) ++
        [overflowRow (dropSelfPractice dataW)
          (booking_frequencies (dropSelfPractice dataW)) M]) := by
  unfold create_frequency_table
  rw [hw]

/-- C9: when a non-empty single period is supplied, `create_frequency_table`
never looks at `start_period`/`end_period`, so any two invocations differing
only in those arguments coincide. -/
theorem c9_single_period_ignores_range (data : List BookingRow)
    (p s1 e1 s2 e2 : Option String) (M : Nat) (hp : truthy p = true) :
    create_frequency_table data p s1 e1 M = create_frequency_table data p s2 e2 M := by
  unfold create_frequency_table window_filter
  simp [hp]

/-- Witness for C9 at a concrete dataset, period and range arguments. -/
theorem c9_witness :
    create_frequency_table c1Data (some "2024-01") (some "2024-02") (some "2024-03") 2 =
      create_frequency_table c1Data (some "2024-01") none none 2 :=
  c9_single_period_ignores_range c1Data (some "2024-01") (some "2024-02") (some "2024-03")
    none none 2 (by decide)

/-- C6: the computation returns `none` (Python `None`) exactly when no
non-empty single period is given and no complete start/end pair is given;
whenever a window is specified a table is produced. -/
theorem c6_none_iff_window_unspecified (data : List BookingRow)
    (p s e : Option String) (M : Nat) :
    create_frequency_table data p s e M = none ↔
      (truthy p = false ∧ (truthy s && truthy e) = false) := by
  unfold create_frequency_table window_filter
  cases hp : truthy p <;> cases hs : truthy s <;> cases he : truthy e <;> simp

/-- C3 (code bug): invoking the table computation with `max_upper = 0` does
not produce any `InvalidConfiguration` error; it silently returns the
overflow-only one-row table.  (The code has no error path at all here: the
only `none` result is the no-window signal of C6.) -/
theorem c3_max_upper_zero_silent_table :
    create_frequency_table c3Data (some "2024-01") none none 0 =
      some [{ Freq := .over 0, Students := 1, CumFromStart := 1, CumToEnd := 1,
              Details := "A : 7" }] := by
  decide

/-- C1 (code bug): at `c1Data` (Bob is person 2 and appears first, Alice is
person 1) the bucket-1 details read "Bob : 1, Alice : 2": the first-seen
distinct names are zipped positionally with the ascending-sorted ids, so Bob
is paired with Alice's id and vice versa, contradicting the claim that each
person is listed with their own name. -/
theorem c1_details_misaligned :
    ((create_frequency_table c1Data (some "2024-01") none none 1).getD []).map
        (fun r => r.Details) = ["Bob : 1, Alice : 2", ""] := by
  decide

/-- C2 counterexample: with one person holding two in-window bookings and
`max_upper = 1`, the code's flattened sample is `[1]` (overflow flattens to
`max_upper`), while the claim's composition (overflow flattens to
`max_upper + 1`) would be `[2]`. -/
theorem c2_counterexample :
    freq_data ((create_frequency_table c2Data (some "2024-01") none none 1).getD []) = [1] ∧
    claimSampleC2 ((create_frequency_table c2Data (some "2024-01") none none 1).getD []) 1
      = [2] ∧
    freq_data ((create_frequency_table c2Data (some "2024-01") none none 1).getD []) ≠
      claimSampleC2 ((create_frequency_table c2Data (some "2024-01") none none 1).getD []) 1 := by
  decide

end BookingApp

namespace BookingApp

/-- Flattening a table of the produced shape gives the amended sample: each
overflow cell of such a table carries `max_upper` itself. -/
lemma freqdata_of_shape (df : List BookingRow) (bf : List (Nat × Nat)) (M : Nat) :
    freq_data ((List.range' 1 M).map (fun i => numericRow df bf M i) ++ [overflowRow df bf M]) =
      amendedSampleC2
        ((List.range' 1 M).map (fun i => numericRow df bf M i) ++ [overflowRow df bf M]) M := by
  unfold freq_data amendedSampleC2
  congr 1
  apply List.map_congr_left
  intro r hr
  rcases List.mem_append.mp hr with h | h
  · rcases List.mem_map.mp h with ⟨i, -, rfl⟩
    rfl
  · rw [List.mem_singleton.mp h]
    rfl

/-- C2 (amended): for any analysis run with a non-empty flattened sample, the
displayed mean/median are the arithmetic mean and the lower median (0-based
index `n / 2` into the value-sorted sequence) of the flattened sample in
which numeric bucket `i` contributes `Students` copies of `i` and the
overflow bucket contributes its `Students` copies of `max_upper` (not
`max_upper + 1`: `int(f">{max_upper}".replace('>', ''))` is `max_upper`). -/
theorem c2_amended_stats (data : List BookingRow) (p s e : Option String) (M : Nat)
    (table : List FreqRow) (h : create_frequency_table data p s e M = some table)
    (hne : freq_data table ≠ []) :
    displayed_stats table =
      some (mean_val (amendedSampleC2 table M), median_val (amendedSampleC2 table M)) ∧
    freq_data table = amendedSampleC2 table M := by
  cases hwf : window_filter data p s e with
  | none =>
    unfold create_frequency_table at h
    rw [hwf] at h
    exact absurd h (by simp)
  | some dataW =>
    have hc := create_eq_some data p s e M dataW hwf
    rw [h] at hc
    have htab := Option.some.inj hc
    have hsample : freq_data table = amendedSampleC2 table M := by
      rw [htab]
      exact freqdata_of_shape _ _ _
    refine ⟨?_, hsample⟩
    have hEmpty : (freq_data table).isEmpty = false := by simp [hne]
    rw [hsample] at hEmpty
    simp only [displayed_stats, hsample, hEmpty, Bool.false_eq_true, if_false]

/-- Witness for C2 (amended) at a concrete run. -/
theorem c2_amended_witness :
    displayed_stats ((create_frequency_table c2Data (some "2024-01") none none 1).getD []) =
      some (mean_val (amendedSampleC2
              ((create_frequency_table c2Data (some "2024-01") none none 1).getD []) 1),
            median_val (amendedSampleC2
              ((create_frequency_table c2Data (some "2024-01") none none 1).getD []) 1)) ∧
    freq_data ((create_frequency_table c2Data (some "2024-01") none none 1).getD []) =
      amendedSampleC2 ((create_frequency_table c2Data (some "2024-01") none none 1).getD []) 1 :=
  c2_amended_stats c2Data (some "2024-01") none none 1
    ((create_frequency_table c2Data (some "2024-01") none none 1).getD []) rfl (by decide)

end BookingApp

namespace BookingApp

/-- Summation distributes over a pointwise sum of two column formulas. -/
lemma sum_map_add {α : Type} (l : List α) (f g : α → Nat) :
    (l.map (fun x => f x + g x)).sum = (l.map f).sum + (l.map g).sum := by
  induction l with
  | nil => rfl
  | cons a l ih =>
    simp only [List.map_cons, List.sum_cons, ih]
    omega

/-- A single count `c` hits exactly one indicator over the index range
`s, s+1, ..., s+n-1`, namely when `s ≤ c < s + n`. -/
lemma count_bucket (c : Nat) : ∀ (n s : Nat),
    ((List.range' s n).map (fun i => if c == i then 1 else 0)).sum
      = if s ≤ c ∧ c < s + n then 1 else 0
  | 0, s => by rw [if_neg (by omega)]; simp
  | n + 1, s => by
    rw [List.range'_succ, List.map_cons, List.sum_cons, count_bucket c n (s + 1)]
    simp only [beq_iff_eq]
    split_ifs <;> omega

/-- Partition of the per-person counts over the numeric buckets `1..M` plus
the overflow bucket: every person with a positive count lands in exactly one
bucket. -/
lemma bucket_partition (M : Nat) (bf : List (Nat × Nat)) (h : ∀ p ∈ bf, 1 ≤ p.2) :
    ((List.range' 1 M).map (fun i => bf.countP (fun p => p.2 == i))).sum
      + bf.countP (fun p => decide (M < p.2)) = bf.length := by
  induction bf with
  | nil =>
    simp only [List.countP_nil, List.length_nil, Nat.add_zero]
    have hz : ∀ l : List Nat, (l.map (fun _ => (0 : Nat))).sum = 0 := by
      intro l; induction l with
      | nil => rfl
      | cons a l ih => simp only [List.map_cons, List.sum_cons, ih]
    exact hz _
  | cons a bf ih =>
    have ha : 1 ≤ a.2 := h a (by simp)
    have h' : ∀ p ∈ bf, 1 ≤ p.2 := fun p hp => h p (by simp [hp])
    simp only [List.countP_cons, List.length_cons]
    rw [sum_map_add, count_bucket]
    have hih := ih h'
    simp only [decide_eq_true_eq]
    split_ifs <;> omega

/-- Every entry of `booking_frequencies` has a positive count: its id occurs
in the rows being grouped. -/
lemma bf_counts_pos (rows : List BookingRow) :
    ∀ p ∈ booking_frequencies rows, 1 ≤ p.2 := by
  intro p hp
  unfold booking_frequencies at hp
  rcases List.mem_map.mp hp with ⟨id, hid, rfl⟩
  unfold sortedIds at hid
  have hd : id ∈ (rows.map (fun r => r.Id_Person)).dedup :=
    ((List.perm_insertionSort _ _).mem_iff).mp hid
  rw [List.mem_dedup] at hd
  rcases List.mem_map.mp hd with ⟨r, hr, hr2⟩
  have hmem : r ∈ rows.filter (fun r' => r'.Id_Person == id) := by
    rw [List.mem_filter]
    exact ⟨hr, by simp [hr2]⟩
  exact List.length_pos.mpr (List.ne_nil_of_mem hmem)

/-- `len(booking_frequencies)` is the number of distinct person ids. -/
lemma bf_length (rows : List BookingRow) :
    (booking_frequencies rows).length = distinct_person_count rows := by
  unfold booking_frequencies distinct_person_count sortedIds
  rw [List.length_map]
  exact (List.perm_insertionSort _ _).length_eq

/-- C4: for any specified window and `max_upper ≥ 1`, the `#Students` column
of the produced table sums to the number of distinct person ids having at
least one in-window, non-excluded booking row. -/
theorem c4_sum_students (data : List BookingRow) (p s e : Option String) (M : Nat)
    (table : List FreqRow) (_hM : 1 ≤ M)
    (h : create_frequency_table data p s e M = some table) :
    (table.map (fun r => r.Students)).sum = distinct_person_count (matching_rows data p s e) := by
  cases hwf : window_filter data p s e with
  | none =>
    unfold create_frequency_table at h
    rw [hwf] at h
    exact absurd h (by simp)
  | some dataW =>
    have hc := create_eq_some data p s e M dataW hwf
    rw [h] at hc
    obtain rfl := Option.some.inj hc
    unfold matching_rows
    rw [hwf]
    simp only [Option.getD_some, List.map_append, List.sum_append, List.map_map,
      Function.comp, List.map_cons, List.map_nil, List.sum_cons, List.sum_nil,
      numericRow, overflowRow, Nat.add_zero]
    rw [← bf_length]
    exact bucket_partition M _ (bf_counts_pos _)

/-- Witness for C4 at `c4Data` (three distinct in-window persons after the
"Self Practice" and window exclusions). -/
theorem c4_witness :
    ((((create_frequency_table c4Data (some "2024-01") none none 2).getD []).map
        (fun r => r.Students)).sum
      = distinct_person_count (matching_rows c4Data (some "2024-01") none none)) :=
  c4_sum_students c4Data (some "2024-01") none none 2
    ((create_frequency_table c4Data (some "2024-01") none none 2).getD []) (by decide) rfl

end BookingApp

namespace BookingApp

/-- Index `k < max_upper` of the produced table holds the numeric row for
bucket `1 + k`. -/
lemma table_getElem_numeric (df : List BookingRow) (bf : List (Nat × Nat)) (M k : Nat)
    (hk : k < M) :
    (((List.range' 1 M).map (fun i => numericRow df bf M i)) ++
        [overflowRow df bf M])[k]? = some (numericRow df bf M (1 + k)) := by
  rw [List.getElem?_append_left (by simpa using hk), List.getElem?_map,
    List.getElem?_range' 1 1 hk]
  simp

/-- C8: over the numeric buckets (list indices `k ≤ l < max_upper`, i.e.
buckets `1+k ≤ 1+l`), `Cum 1->` is non-decreasing and `Cum ->End` is
non-increasing. -/
theorem c8_cumulative_monotone (data : List BookingRow) (p s e : Option String) (M : Nat)
    (table : List FreqRow) (_hM : 1 ≤ M)
    (h : create_frequency_table data p s e M = some table)
    (k l : Nat) (hkl : k ≤ l) (hl : l < M) (rk rl : FreqRow)
    (hrk : table[k]? = some rk) (hrl : table[l]? = some rl) :
    rk.CumFromStart ≤ rl.CumFromStart ∧ rl.CumToEnd ≤ rk.CumToEnd := by
  cases hwf : window_filter data p s e with
  | none =>
    unfold create_frequency_table at h
    rw [hwf] at h
    exact absurd h (by simp)
  | some dataW =>
    have hc := create_eq_some data p s e M dataW hwf
    rw [h] at hc
    obtain rfl := Option.some.inj hc
    rw [table_getElem_numeric _ _ _ _ (Nat.lt_of_le_of_lt hkl hl)] at hrk
    rw [table_getElem_numeric _ _ _ _ hl] at hrl
    obtain rfl := Option.some.inj hrk
    obtain rfl := Option.some.inj hrl
    have hmono : (booking_frequencies (dropSelfPractice dataW)).countP
          (fun q => decide (q.2 ≤ 1 + k)) ≤
        (booking_frequencies (dropSelfPractice dataW)).countP
          (fun q => decide (q.2 ≤ 1 + l)) := by
      apply List.countP_mono_left
      intro x _ hx
      simp only [decide_eq_true_eq] at hx ⊢
      omega
    exact ⟨hmono, Nat.sub_le_sub_left hmono _⟩

/-- Witness for C8 at a concrete run (`c4Data`, buckets 1 and 2). -/
theorem c8_witness :
    (((create_frequency_table c4Data (some "2024-01") none none 2).getD [])[0]?.getD
        default).CumFromStart ≤
      (((create_frequency_table c4Data (some "2024-01") none none 2).getD [])[1]?.getD
        default).CumFromStart ∧
    (((create_frequency_table c4Data (some "2024-01") none none 2).getD [])[1]?.getD
        default).CumToEnd ≤
      (((create_frequency_table c4Data (some "2024-01") none none 2).getD [])[0]?.getD
        default).CumToEnd :=
  c8_cumulative_monotone c4Data (some "2024-01") none none 2
    ((create_frequency_table c4Data (some "2024-01") none none 2).getD []) (by decide) rfl
    0 1 (by decide) (by decide)
    (((create_frequency_table c4Data (some "2024-01") none none 2).getD [])[0]?.getD default)
    (((create_frequency_table c4Data (some "2024-01") none none 2).getD [])[1]?.getD default)
    rfl rfl

end BookingApp

namespace BookingApp

/-- Two row-wise filters commute. -/
lemma filter_swap {α : Type} (l : List α) (f g : α → Bool) :
    (l.filter g).filter f = (l.filter f).filter g := by
  simp only [List.filter_filter]
  exact List.filter_congr (fun a _ => Bool.and_comm _ _)

/-- Pre-filtering the dataset commutes with the window selection. -/
lemma window_filter_comm (data : List BookingRow) (g : BookingRow → Bool)
    (p s e : Option String) :
    window_filter (data.filter g) p s e =
      (window_filter data p s e).map (fun l => l.filter g) := by
  unfold window_filter
  by_cases hp : truthy p = true
  · rw [if_pos hp, if_pos hp]
    simp only [Option.map_some']
    rw [filter_swap]
  · rw [if_neg hp, if_neg hp]
    by_cases hse : (truthy s && truthy e) = true
    · rw [if_pos hse, if_pos hse]
      simp only [Option.map_some']
      rw [filter_swap]
    · rw [if_neg hse, if_neg hse]
      rfl

/-- C7: rows whose class name contains "Self Practice" (case-insensitive) are
inert: deleting them from the dataset leaves every analysis output unchanged,
for every window and `max_upper`. -/
theorem c7_self_practice_inert (data : List BookingRow) (p s e : Option String) (M : Nat) :
    create_frequency_table data p s e M =
      create_frequency_table
        (data.filter (fun r => !containsSelfPractice r.Class_Name)) p s e M := by
  unfold create_frequency_table
  rw [window_filter_comm data (fun r => !containsSelfPractice r.Class_Name) p s e]
  cases window_filter data p s e with
  | none => rfl
  | some dataW =>
    simp only [Option.map_some']
    have hdf : dropSelfPractice
        (dataW.filter (fun r => !containsSelfPractice r.Class_Name)) =
        dropSelfPractice dataW := by
      unfold dropSelfPractice
      rw [List.filter_filter]
      exact List.filter_congr
        (fun a _ => by cases containsSelfPractice a.Class_Name <;> rfl)
    rw [hdf]

end BookingApp

namespace BookingApp

/-- A digit character's code point is at most 57 (the code of '9'). -/
lemma digit_toNat_le {c : Char} (h : c.isDigit = true) : c.toNat ≤ 57 := by
  unfold Char.isDigit at h
  rw [Bool.and_eq_true, decide_eq_true_eq, decide_eq_true_eq] at h
  exact UInt32.toNat_le_of_le (by decide) h.2

/-- A `YYYY-MM` string is not the literal `"NaT"`. -/
lemma isYearMonth_ne_NaT {m : String} (h : isYearMonth m = true) : m ≠ "NaT" := by
  intro hEq
  subst hEq
  exact absurd h (by decide)

/-- A `YYYY-MM` string compares strictly below `"NaT"` in Python's
lexicographic string order: its leading digit is below 'N'. -/
lemma isYearMonth_lexLt_NaT {m : String} (h : isYearMonth m = true) :
    lexLt m.data "NaT".data = true := by
  unfold isYearMonth at h
  rcases hm : m.data with - |
    ⟨y1, - | ⟨y2, - | ⟨y3, - | ⟨y4, - | ⟨sep, - | ⟨m1, - | ⟨m2, - | ⟨x, xs⟩⟩⟩⟩⟩⟩⟩⟩ <;>
    rw [hm] at h <;>
    try exact Bool.noConfusion h
  have hc : (y1.isDigit && y2.isDigit && y3.isDigit && y4.isDigit &&
      (sep == '-') && m1.isDigit && m2.isDigit) = true := h
  simp only [Bool.and_eq_true] at hc
  have hle := digit_toNat_le hc.1.1.1.1.1.1
  have hNaT : "NaT".data = ['N', 'a', 'T'] := rfl
  rw [hNaT]
  simp only [lexLt, Bool.or_eq_true, decide_eq_true_eq]
  left
  have hN : ('N' : Char).toNat = 78 := rfl
  rw [hN]
  omega

/-- So `"NaT" <= e` is false for every `YYYY-MM` upper bound `e`. -/
lemma strLe_NaT_eq_false {e : String} (h : isYearMonth e = true) :
    strLe "NaT" e = false := by
  unfold strLe
  rw [isYearMonth_lexLt_NaT h]
  rfl

/-- C5: rows whose timestamp failed to parse (`Start_Date_time = none`,
rendered "NaT") are inert for every window made of `YYYY-MM` strings:
deleting them from the dataset leaves the whole analysis output unchanged,
in single-month mode ("NaT" equals no month) and in range mode ("NaT"
compares above every `YYYY-MM` end bound). -/
theorem c5_unparsable_rows_inert (data : List BookingRow) (p s e : Option String) (M : Nat)
    (hp : truthy p = true → isYearMonth (optStr p) = true)
    (he : truthy s = true → truthy e = true → isYearMonth (optStr e) = true) :
    create_frequency_table data p s e M =
      create_frequency_table (data.filter (fun r => r.Start_Date_time.isSome)) p s e M := by
  unfold create_frequency_table window_filter
  by_cases hpt : truthy p = true
  · rw [if_pos hpt, if_pos hpt]
    have hq : (data.filter (fun r => r.Start_Date_time.isSome)).filter
          (fun r => periodOf r == optStr p) =
        data.filter (fun r => periodOf r == optStr p) := by
      rw [List.filter_filter]
      apply List.filter_congr
      intro r _
      cases hr : r.Start_Date_time with
      | some v => simp [hr]
      | none =>
        have hne : periodOf r ≠ optStr p := by
          simp only [periodOf, hr, Option.getD_none]
          exact fun hEq => isYearMonth_ne_NaT (hp hpt) hEq.symm
        simp [hr, hne]
    rw [hq]
  · rw [if_neg hpt, if_neg hpt]
    by_cases hse : (truthy s && truthy e) = true
    · rw [if_pos hse, if_pos hse]
      have hparts := hse
      rw [Bool.and_eq_true] at hparts
      obtain ⟨hst, het⟩ := hparts
      have hYM := he hst het
      have hq : (data.filter (fun r => r.Start_Date_time.isSome)).filter
            (fun r => strLe (optStr s) (periodOf r) && strLe (periodOf r) (optStr e)) =
          data.filter
            (fun r => strLe (optStr s) (periodOf r) && strLe (periodOf r) (optStr e)) := by
        rw [List.filter_filter]
        apply List.filter_congr
        intro r _
        cases hr : r.Start_Date_time with
        | some v => simp [hr]
        | none =>
          have hfalse : strLe (periodOf r) (optStr e) = false := by
            simp only [periodOf, hr, Option.getD_none]
            exact strLe_NaT_eq_false hYM
          simp [hfalse, hr]
      rw [hq]
    · rw [if_neg hse, if_neg hse]

/-- Witness for C5 at `c5Data` (contains a row with an unparsable timestamp). -/
theorem c5_witness :
    create_frequency_table c5Data (some "2024-01") none none 3 =
      create_frequency_table (c5Data.filter (fun r => r.Start_Date_time.isSome))
        (some "2024-01") none none 3 :=
  c5_unparsable_rows_inert c5Data (some "2024-01") none none 3
    (fun _ => by decide) (fun hs _ => absurd hs (by decide))

end BookingApp

namespace BookingApp

/-- "Not below" is transitive for the lexicographic comparison. -/
lemma lexLt_false_trans : ∀ (x y z : List Char),
    lexLt x y = false → lexLt y z = false → lexLt x z = false
  | x, _, [] => by
    intro _ _
    cases x <;> rfl
  | _, [], _ :: _ => by
    intro _ h2
    exact absurd h2 (by simp [lexLt])
  | [], _ :: _, _ :: _ => by
    intro h1 _
    exact absurd h1 (by simp [lexLt])
  | a :: as, b :: bs, c :: cs => by
    intro h1 h2
    simp only [lexLt, Bool.or_eq_false_iff, Bool.and_eq_false_iff,
      decide_eq_false_iff_not, beq_eq_false_iff_ne, ne_eq] at h1 h2 ⊢
    obtain ⟨hab, hab2⟩ := h1
    obtain ⟨hbc, hbc2⟩ := h2
    constructor
    · omega
    · by_cases hac : a.toNat = c.toNat
      · right
        have h3 : lexLt as bs = false := by
          rcases hab2 with h | h
          · omega
          · exact h
        have h4 : lexLt bs cs = false := by
          rcases hbc2 with h | h
          · omega
          · exact h
        exact lexLt_false_trans as bs cs h3 h4
      · left
        exact hac

/-- C10: a supplied range window with `start_period > end_period` does not
fail and does not yield `None`: the window filter keeps no row (no month is
both `>= start` and `<= end`), so the result is a full `max_upper + 1`-row
table with every `#Students` equal to 0 and every details string empty. -/
theorem c10_inverted_range_full_zero_table (data : List BookingRow) (s e : Option String)
    (M : Nat) (_hM : 1 ≤ M) (hs : truthy s = true) (he : truthy e = true)
    (hlt : strLe (optStr s) (optStr e) = false) :
    ∃ table, create_frequency_table data none s e M = some table ∧
      table.length = M + 1 ∧ ∀ r ∈ table, r.Students = 0 ∧ r.Details = "" := by
  have hwf : window_filter data none s e =
      some (data.filter (fun r =>
        strLe (optStr s) (periodOf r) && strLe (periodOf r) (optStr e))) := by
    unfold window_filter
    rw [if_neg (by decide), if_pos (by rw [hs, he]; rfl)]
  have hnil : data.filter (fun r =>
      strLe (optStr s) (periodOf r) && strLe (periodOf r) (optStr e)) = [] := by
    rw [List.filter_eq_nil_iff]
    intro r _ hq
    rw [Bool.and_eq_true] at hq
    obtain ⟨h1, h2⟩ := hq
    unfold strLe at h1 h2 hlt
    rw [Bool.not_eq_true'] at h1 h2
    rw [Bool.not_eq_false'] at hlt
    have hcontra := lexLt_false_trans _ _ _ h2 h1
    rw [hcontra] at hlt
    exact Bool.noConfusion hlt
  have hcreate := create_eq_some data none s e M [] (by rw [hwf, hnil])
  refine ⟨_, hcreate, ?_, ?_⟩
  · simp
  · intro r hr
    rcases List.mem_append.mp hr with hmem | hmem
    · rcases List.mem_map.mp hmem with ⟨i, -, rfl⟩
      exact ⟨rfl, rfl⟩
    · rw [List.mem_singleton.mp hmem]
      exact ⟨rfl, rfl⟩

/-- Witness for C10: range `2024-05 .. 2024-01` over `c4Data`. -/
theorem c10_witness :
    ∃ table, create_frequency_table c4Data none (some "2024-05") (some "2024-01") 1
        = some table ∧
      table.length = 1 + 1 ∧ ∀ r ∈ table, r.Students = 0 ∧ r.Details = "" :=
  c10_inverted_range_full_zero_table c4Data (some "2024-05") (some "2024-01") 1
    (by decide) (by decide) (by decide) (by decide)

end BookingApp
